import Mathlib

/-!
Shallow embedding of the session/stage core of the writing-exercise backend
(single-file Express app): the session record, the stage-transition handlers
(`handleAdvanceToPeer`, `handleAdvanceToFinal`, `handleJump`, `handleRegress`),
the content-submission routes, the identity scheme (`buildSessionKey`,
`makeSoloRoomId`, `makePairRoomId`), the presence tracker, the partner
assign/clear operations and the get-or-create session path.

Conventions of the embedding:
* JS `Date.now()` timestamps are passed in explicitly as a `now : Nat`
  argument; every mutation takes the time at which it runs.
* JS `throw createHttpError(status, msg)` becomes `Except.error ⟨status, msg⟩`;
  a route that throws before mutating leaves the record unchanged, which the
  functional embedding reflects by returning the error without a new state.
* The external crypto md5 hex digest is an opaque collaborator: functions that
  call it take the digest function as an explicit parameter `h`.
* JS string truthiness (`!s`) is emptiness; `String(x || '').trim()` becomes
  `jsTrim`; `toUpperCase` becomes `jsUpper`; `.slice(0, 12)` becomes `take12`.
  These are written directly over the underlying character lists so that
  concrete executions reduce inside the kernel; they agree with the JS
  operations on the ASCII data involved.
* JS numbers holding timestamps and stages are modelled as `Nat`; the raw
  stage requested on the jump route arrives as an `Int` (it may be negative
  before clamping).  `Number(record.stage || 1)` becomes `jsStage`.
-/

namespace EE3

/-- `createHttpError(status, message)`. -/
structure HttpError where
  status : Nat
  message : String
deriving DecidableEq, Repr

/-- One session record, with the fields `createSession` initialises. -/
structure Session where
  sessionKey : String
  group : String
  studentId : String
  studentName : String
  roomId : String
  stage : Nat
  preText : String
  preSubmittedAt : Nat
  draftText : String
  draftSavedAt : Nat
  notesText : String
  notesUpdatedAt : Nat
  finalText : String
  finalSubmittedAt : Nat
  partnerStudentId : String
  partnerName : String
  createdAt : Nat
  updatedAt : Nat
deriving DecidableEq, Repr

/-- `toUpperCase()` on the character list (ASCII case mapping). -/
def jsUpper (s : String) : String := String.mk (s.data.map Char.toUpper)

/-- `trim()`: strip leading and trailing whitespace from the character list. -/
def jsTrim (s : String) : String :=
  String.mk
    (((s.data.dropWhile Char.isWhitespace).reverse.dropWhile
        Char.isWhitespace).reverse)

/-- `.slice(0, 12)` on a digest string. -/
def take12 (s : String) : String := String.mk (s.data.take 12)

/-- `Number(record.stage || 1)`: a stored stage of 0 reads as 1. -/
def jsStage (n : Nat) : Nat := if n = 0 then 1 else n

/-- `ensureStage(record, target)`: sets the stage and refreshes `updatedAt`. -/
def ensureStage (now : Nat) (r : Session) (target : Nat) : Session :=
  { r with stage := target, updatedAt := now }

/-- `handleAdvanceToPeer(record)`. -/
def handleAdvanceToPeer (now : Nat) (r : Session) : Except HttpError Session :=
  let stage := jsStage r.stage
  let group := (jsUpper r.group)
  if stage = 2 then
    if r.draftText = "" then
      .error ⟨400, "2단계 메모를 먼저 저장하세요."⟩
    else if group = "C" then
      .ok (ensureStage now r 4)
    else
      .ok (ensureStage now r 3)
  else if stage = 3 then
    if r.notesText = "" then
      .error ⟨400, "3단계 메모를 먼저 저장하세요."⟩
    else
      .ok (ensureStage now r 4)
  else if stage < 2 then
    .ok (ensureStage now r 2)
  else
    .ok r

/-- `handleAdvanceToFinal(record)`. -/
def handleAdvanceToFinal (now : Nat) (r : Session) : Except HttpError Session :=
  let group := (jsUpper r.group)
  let stage := jsStage r.stage
  if (group = "A" ∨ group = "B") ∧ r.notesText = "" then
    .error ⟨400, "3단계 메모를 먼저 저장하세요."⟩
  else if group ≠ "C" ∧ stage < 3 then
    .error ⟨400, "최종 단계로 이동하기 전에 이전 단계를 완료하세요."⟩
  else if r.draftText = "" then
    .error ⟨400, "2단계 메모를 먼저 저장하세요."⟩
  else
    .ok (ensureStage now r 4)

/-- `handleJump(record, desired)` (the desired stage as the route computed it). -/
def handleJump (now : Nat) (r : Session) (desired : Nat) : Except HttpError Session :=
  let group := (jsUpper r.group)
  let currentStage := jsStage r.stage
  if desired = 3 ∧ ¬(group = "A" ∨ group = "B") then
    .error ⟨400, "해당 집단은 3단계가 없습니다."⟩
  else if desired = currentStage then
    .ok r
  else if desired > currentStage then
    if desired = 2 ∧ r.preText = "" then
      .error ⟨400, "사전 글쓰기를 먼저 제출하세요."⟩
    else if desired = 3 ∧ r.draftText = "" then
      .error ⟨400, "2단계 메모를 먼저 저장하세요."⟩
    else if desired = 4 then
      if group = "A" ∨ group = "B" then
        if r.notesText = "" then .error ⟨400, "3단계 메모를 먼저 저장하세요."⟩
        else .ok (ensureStage now r desired)
      else if group = "C" then
        if r.draftText = "" then .error ⟨400, "2단계 메모를 먼저 저장하세요."⟩
        else .ok (ensureStage now r desired)
      else if r.finalText = "" ∧ r.finalSubmittedAt = 0 then
        .error ⟨400, "최종 단계로 이동 조건이 충족되지 않았습니다."⟩
      else .ok (ensureStage now r desired)
    else
      .ok (ensureStage now r desired)
  else
    if desired = 2 ∧ r.preText = "" then
      .error ⟨400, "사전 글쓰기를 먼저 제출하세요."⟩
    else if desired = 3 ∧ r.draftText = "" then
      .error ⟨400, "2단계 메모를 먼저 저장하세요."⟩
    else
      .ok (ensureStage now r desired)

/-- `handleRegress(record)`. -/
def handleRegress (now : Nat) (r : Session) : Except HttpError Session :=
  let currentStage := jsStage r.stage
  let group := (jsUpper r.group)
  if currentStage ≤ 1 then .ok r
  else if currentStage = 2 then .ok (ensureStage now r 1)
  else if currentStage = 3 then .ok (ensureStage now r 2)
  else if currentStage ≥ 4 then
    .ok (ensureStage now r (if group = "C" then 2 else 3))
  else .ok r

/-- The jump route's clamp:
`Math.min(5, Math.max(1, Number(req.body?.stage || 0) || 1))`.
A missing/zero request reads as 1; the result is clamped into 1..5. -/
def clampJumpStage (requested : Int) : Nat :=
  let n : Int := if requested = 0 then 1 else requested
  (min 5 (max 1 n)).toNat

/-- POST `/session/:sessionKey/prewriting` acting on a found record
(the `requireBodyFields` guard plus the write-once check and the write). -/
def postPrewriting (now : Nat) (r : Session) (text : String) :
    Except HttpError Session :=
  if text = "" then .error ⟨400, "text 값이 필요합니다."⟩
  else if r.preText ≠ "" then
    .error ⟨400, "이미 사전 글쓰기가 제출되었습니다."⟩
  else
    let r1 := { r with preText := (jsTrim text), preSubmittedAt := now }
    let r2 := if jsStage r1.stage < 2 then ensureStage now r1 2 else r1
    .ok { r2 with updatedAt := now }

/-- POST `/session/:sessionKey/draft` acting on a found record. -/
def postDraft (now : Nat) (r : Session) (text : String) :
    Except HttpError Session :=
  if text = "" then .error ⟨400, "text 값이 필요합니다."⟩
  else
    let r1 := { r with draftText := (jsTrim text), draftSavedAt := now }
    let r2 := if jsStage r1.stage < 2 then ensureStage now r1 2 else r1
    .ok { r2 with updatedAt := now }

/-- POST `/session/:sessionKey/notes` acting on a found record. -/
def postNotes (now : Nat) (r : Session) (text : String) :
    Except HttpError Session :=
  if text = "" then .error ⟨400, "text 값이 필요합니다."⟩
  else
    let r1 := { r with notesText := (jsTrim text), notesUpdatedAt := now }
    let group := (jsUpper r1.group)
    let r2 :=
      if jsStage r1.stage < 3 ∧ (group = "A" ∨ group = "B") then
        ensureStage now r1 3
      else r1
    .ok { r2 with updatedAt := now }

/-- POST `/session/:sessionKey/final` acting on a found record.
Note: unlike prewriting, there is no write-once check here. -/
def postFinal (now : Nat) (r : Session) (text : String) :
    Except HttpError Session :=
  if text = "" then .error ⟨400, "text 값이 필요합니다."⟩
  else
    let t := (jsTrim text)
    if t = "" then .error ⟨400, "최종 제출할 글이 없습니다."⟩
    else
      .ok (ensureStage now
        { r with finalText := t, finalSubmittedAt := now } 4)

/-- `buildSessionKey(group, studentId)`. -/
def buildSessionKey (group studentId : String) : Except HttpError String :=
  let g := (jsUpper group)
  let sid := (jsTrim studentId)
  if g = "" ∨ sid = "" then
    .error ⟨400, "집단과 식별 번호가 필요합니다."⟩
  else
    .ok (g ++ "|" ++ sid)

/-- `makeSoloRoomId(group, studentId)`; `h` is the external md5 hex digest. -/
def makeSoloRoomId (h : String → String) (group studentId : String) : String :=
  "solo_" ++ take12 (h (group ++ "|" ++ studentId))

/-- `makePairRoomId(keyA, keyB)`; `h` is the external md5 hex digest.
The two keys are trimmed and ordered lexicographically before hashing. -/
def makePairRoomId (h : String → String) (keyA keyB : String) : String :=
  let a := (jsTrim keyA)
  let b := (jsTrim keyB)
  let left := if a < b then a else b
  let right := if a < b then b else a
  "r_" ++ take12 (h (left ++ "|" ++ right))

/-- `PRESENCE_TTL_MS`. -/
def PRESENCE_TTL_MS : Nat := 20000

/-- The in-memory presence registry: key `roomId|studentId` to a timestamp.
Modelled as an association list with `Map.set` replace-or-add semantics. -/
def PresenceMap := List (String × Nat)

/-- `Map.get`-style lookup. -/
def presenceGet (m : PresenceMap) (key : String) : Option Nat :=
  match List.find? (fun e => e.fst = key) m with
  | some e => some e.snd
  | none => none

/-- `Map.set`: replace an existing entry or add a new one. -/
def presenceSet (m : PresenceMap) (key : String) (ts : Nat) : PresenceMap :=
  match m with
  | [] => [(key, ts)]
  | e :: rest =>
    if e.fst = key then (key, ts) :: rest else e :: presenceSet rest key ts

/-- `touchPresence(roomId, studentId)`: result flag, new timestamp, new map. -/
def touchPresence (now : Nat) (m : PresenceMap) (roomId studentId : String) :
    Bool × Nat × PresenceMap :=
  if roomId = "" ∨ studentId = "" then (false, 0, m)
  else
    let key := roomId ++ "|" ++ studentId
    (true, now, presenceSet m key now)

/-- `markLeave(roomId, studentId)`. -/
def markLeave (m : PresenceMap) (roomId studentId : String) : PresenceMap :=
  let key := roomId ++ "|" ++ studentId
  m.filter (fun e => e.fst ≠ key)

/-- `readPresence(roomId, studentId)`: `presenceMap.get(key) || 0`. -/
def readPresence (m : PresenceMap) (roomId studentId : String) : Nat :=
  if roomId = "" ∨ studentId = "" then 0
  else
    match presenceGet m (roomId ++ "|" ++ studentId) with
    | some v => v
    | none => 0

/-- `{lastSeen, online}` for one participant. -/
structure PresenceInfo where
  lastSeen : Nat
  online : Bool
deriving DecidableEq, Repr

/-- `isOnline(ts)` inside `buildPresenceSummary`: `ts && now - ts < TTL`.
A `ts` of 0 is falsy, hence offline.  JS computes `now - ts` as a possibly
negative number; with truncated `Nat` subtraction the comparison with the TTL
gives the same boolean in every case. -/
def isOnline (now ts : Nat) : Bool := ts ≠ 0 ∧ now - ts < PRESENCE_TTL_MS

/-- `buildPresenceSummary(roomId, studentId, partnerStudentId)`. -/
def buildPresenceSummary (now : Nat) (m : PresenceMap)
    (roomId studentId partnerStudentId : String) :
    PresenceInfo × Option PresenceInfo :=
  let selfTs := readPresence m roomId studentId
  let partnerTs :=
    if partnerStudentId ≠ "" then readPresence m roomId partnerStudentId else 0
  (⟨selfTs, isOnline now selfTs⟩,
   if partnerStudentId ≠ "" then some ⟨partnerTs, isOnline now partnerTs⟩
   else none)

/-- One row of `store.matchups` (missing JS fields read as `''`). -/
structure MatchRow where
  roomId : String
  studentIdA : String
  nameA : String
  studentIdB : String
  nameB : String
  group : String
deriving DecidableEq, Repr

/-- The partner hint `findMatchForStudent` returns. -/
structure PartnerHint where
  roomId : String
  partnerId : String
  partnerName : String
  keyA : String
  keyB : String
deriving DecidableEq, Repr

/-- The scan loop inside `findMatchForStudent`: first row that passes the
group filter and matches by id or by display name yields the hint. -/
def findMatchLoop (h : String → String) (upperGroup sid sname : String) :
    List MatchRow → Option PartnerHint
  | [] => none
  | row :: rest =>
    if row.group ≠ "" ∧ (jsUpper row.group) ≠ upperGroup then
      findMatchLoop h upperGroup sid sname rest
    else
      let aId := (jsTrim row.studentIdA)
      let bId := (jsTrim row.studentIdB)
      let aName := (jsTrim row.nameA)
      let bName := (jsTrim row.nameB)
      if (aId ≠ "" ∧ aId = sid) ∨ (bId ≠ "" ∧ bId = sid) ∨
          (aName ≠ "" ∧ aName = sname) ∨ (bName ≠ "" ∧ bName = sname) then
        let keyA := if aId ≠ "" then aId else aName
        let keyB := if bId ≠ "" then bId else bName
        let roomId :=
          if row.roomId ≠ "" then row.roomId else makePairRoomId h keyA keyB
        some
          { roomId := roomId
            partnerId := if aId = sid then bId else aId
            partnerName := if aId = sid then bName else aName
            keyA := keyA
            keyB := keyB }
      else findMatchLoop h upperGroup sid sname rest

/-- `findMatchForStudent(group, studentId, studentName)` over the matchup rows. -/
def findMatchForStudent (h : String → String)
    (matchups : List MatchRow) (group studentId studentName : String) :
    Option PartnerHint :=
  findMatchLoop h (jsUpper group) (jsTrim studentId) (jsTrim studentName) matchups

/-- `createSession(group, studentId, studentName, partnerHint)` (the
`buildSessionKey` call inside it can throw). -/
def createSession (h : String → String) (now : Nat)
    (group studentId studentName : String) (partnerHint : Option PartnerHint) :
    Except HttpError Session :=
  match buildSessionKey group studentId with
  | .error e => .error e
  | .ok sessionKey =>
    let upperGroup := (jsUpper group)
    let roomId :=
      match partnerHint with
      | some hint =>
        if hint.roomId ≠ "" then hint.roomId
        else makePairRoomId h hint.keyA hint.keyB
      | none => makeSoloRoomId h group studentId
    let partnerStudentId :=
      match partnerHint with
      | some hint => hint.partnerId
      | none => ""
    let partnerName :=
      match partnerHint with
      | some hint => hint.partnerName
      | none => ""
    .ok
      { sessionKey := sessionKey
        group := upperGroup
        studentId := (jsTrim studentId)
        studentName := (jsTrim studentName)
        roomId := roomId
        stage := 1
        preText := ""
        preSubmittedAt := 0
        draftText := ""
        draftSavedAt := 0
        notesText := ""
        notesUpdatedAt := 0
        finalText := ""
        finalSubmittedAt := 0
        partnerStudentId := partnerStudentId
        partnerName := partnerName
        createdAt := now
        updatedAt := now }

/-- `findSession(sessionKey)` over the stored session list. -/
def findSession (sessions : List Session) (key : String) : Option Session :=
  List.find? (fun s => s.sessionKey = key) sessions

/-- Replace the record stored under a session key (the functional image of a
JS in-place mutation of the found record). -/
def updateByKey (sessions : List Session) (key : String)
    (f : Session → Session) : List Session :=
  sessions.map (fun s => if s.sessionKey = key then f s else s)

/-- `ensureSession(group, studentId, studentName)`: get-or-create over the
stored list, returning the new list and the ensured record. -/
def ensureSession (h : String → String) (now : Nat) (matchups : List MatchRow)
    (sessions : List Session) (group studentId studentName : String) :
    Except HttpError (List Session × Session) :=
  match buildSessionKey group studentId with
  | .error e => .error e
  | .ok sessionKey =>
    let upperGroup := (jsUpper group)
    let partnerHint :=
      if upperGroup = "A" ∨ upperGroup = "B" then
        findMatchForStudent h matchups group studentId studentName
      else none
    match findSession sessions sessionKey with
    | none =>
      match createSession h now group studentId studentName partnerHint with
      | .error e => .error e
      | .ok record => .ok (sessions ++ [record], record)
    | some record =>
      let r1 :=
        { record with
            studentName :=
              jsTrim
                (if studentName ≠ "" then studentName
                 else record.studentName) }
      let r2 :=
        if r1.roomId = "" then
          { r1 with
              roomId :=
                match partnerHint with
                | some hint =>
                  if hint.roomId ≠ "" then hint.roomId else r1.roomId
                | none => makeSoloRoomId h group studentId }
        else r1
      let r3 :=
        match partnerHint with
        | some hint =>
          { r2 with
              partnerStudentId :=
                if hint.partnerId ≠ "" then hint.partnerId
                else r2.partnerStudentId
              partnerName :=
                if hint.partnerName ≠ "" then hint.partnerName
                else r2.partnerName }
        | none => r2
      let r4 := { r3 with updatedAt := now }
      .ok (updateByKey sessions sessionKey (fun _ => r4), r4)

/-- The body of POST `/admin/sessions/:sessionKey/partner`. -/
structure PartnerPayload where
  partnerSessionKey : String
  partnerId : String
  partnerName : String
deriving DecidableEq, Repr

/-- `assignPartnerRecord(record, payload)` wrapped in its admin route: the
record is looked up by key, and on the concrete-partner branch both sides of
the pairing are rewritten in the stored list. -/
def assignPartnerRecord (h : String → String) (now : Nat)
    (sessions : List Session) (sessionKey : String) (payload : PartnerPayload) :
    Except HttpError (List Session) :=
  match findSession sessions sessionKey with
  | none => .error ⟨404, "세션을 찾을 수 없습니다."⟩
  | some record =>
    let psk := (jsTrim payload.partnerSessionKey)
    let pid := (jsTrim payload.partnerId)
    let pname := (jsTrim payload.partnerName)
    let partnerRecord0 := if psk ≠ "" then findSession sessions psk else none
    let partnerRecord :=
      match partnerRecord0 with
      | some p => some p
      | none =>
        if pid ≠ "" then
          List.find? (fun s => s.group = record.group ∧ s.studentId = pid)
            sessions
        else none
    match partnerRecord with
    | some p =>
      if p.sessionKey = record.sessionKey then
        .error ⟨400, "자기 자신과 매칭할 수 없습니다."⟩
      else
        let roomId :=
          if record.roomId ≠ "" then record.roomId
          else if p.roomId ≠ "" then p.roomId
          else makePairRoomId h record.sessionKey p.sessionKey
        let newRecord :=
          { record with
              roomId := roomId
              partnerStudentId := p.studentId
              partnerName := p.studentName
              updatedAt := now }
        let newPartner :=
          { p with
              roomId := roomId
              partnerStudentId := record.studentId
              partnerName := record.studentName
              updatedAt := now }
        .ok (updateByKey
              (updateByKey sessions record.sessionKey (fun _ => newRecord))
              p.sessionKey (fun _ => newPartner))
    | none =>
      .ok (updateByKey sessions record.sessionKey (fun r =>
        { r with
            partnerStudentId := pid
            partnerName := pname
            updatedAt := now }))

/-- `clearPartnerRecord(record)` wrapped in its admin route: clears this
side, and the partner side too when the partner's own record points back. -/
def clearPartnerRecord (now : Nat) (sessions : List Session)
    (sessionKey : String) : Except HttpError (List Session) :=
  match findSession sessions sessionKey with
  | none => .error ⟨404, "세션을 찾을 수 없습니다."⟩
  | some record =>
    let sessions1 :=
      if record.partnerStudentId ≠ "" then
        match
          List.find?
            (fun s =>
              s.group = record.group ∧ s.studentId = record.partnerStudentId)
            sessions with
        | some partner =>
          if partner.partnerStudentId = record.studentId then
            updateByKey sessions partner.sessionKey (fun p =>
              { p with
                  partnerStudentId := ""
                  partnerName := ""
                  updatedAt := now })
          else sessions
        | none => sessions
      else sessions
    .ok (updateByKey sessions1 sessionKey (fun r =>
      { r with
          partnerStudentId := ""
          partnerName := ""
          updatedAt := now }))

/-- One inbound session-mutating operation, as exposed by the routes.
`jump` carries the raw requested stage before the route's clamp. -/
inductive Op where
  | advance : Op
  | advanceFinal : Op
  | jump : Int → Op
  | regress : Op
  | prewriting : String → Op
  | draft : String → Op
  | notes : String → Op
  | final : String → Op
deriving DecidableEq, Repr

/-- Dispatch one operation to its handler, exactly as the routes do. -/
def applyOp (now : Nat) (r : Session) : Op → Except HttpError Session
  | .advance => handleAdvanceToPeer now r
  | .advanceFinal => handleAdvanceToFinal now r
  | .jump requested => handleJump now r (clampJumpStage requested)
  | .regress => handleRegress now r
  | .prewriting t => postPrewriting now r t
  | .draft t => postDraft now r t
  | .notes t => postNotes now r t
  | .final t => postFinal now r t

/-- Run one operation; a thrown error leaves the stored record unchanged
(every handler throws before mutating). -/
def runOp (now : Nat) (r : Session) (op : Op) : Session :=
  match applyOp now r op with
  | .ok r1 => r1
  | .error _ => r

/-- Run a timed sequence of operations. -/
def runOps (r : Session) : List (Nat × Op) → Session
  | [] => r
  | (now, op) :: rest => runOps (runOp now r op) rest

/-- A fixed stand-in for the external md5 hex digest used to run the
identity scheme on concrete inputs. -/
def md5stub : String → String := fun _ => "0123456789abcdef"

/-- The record `createSession` builds for group "A", id "S1", name "Kim"
with no pairing hint, under `md5stub`, at time 0. -/
def baseSession : Session :=
  { sessionKey := "A|S1", group := "A", studentId := "S1",
    studentName := "Kim", roomId := "solo_0123456789ab", stage := 1,
    preText := "", preSubmittedAt := 0, draftText := "", draftSavedAt := 0,
    notesText := "", notesUpdatedAt := 0, finalText := "",
    finalSubmittedAt := 0, partnerStudentId := "", partnerName := "",
    createdAt := 0, updatedAt := 0 }

/-- A fresh group-"C" session. -/
def cSession : Session :=
  { baseSession with sessionKey := "C|S1", group := "C" }

/-- A fresh group-"D" session. -/
def dSession : Session :=
  { baseSession with sessionKey := "D|S1", group := "D" }

/-- A group-"C" session at stage 2 with a saved draft. -/
def cDraftSession : Session :=
  { baseSession with
      sessionKey := "C|S1"
      group := "C"
      stage := 2
      draftText := "메모" }

/-- A group-"D" session at stage 2 with a saved draft. -/
def dDraftSession : Session :=
  { baseSession with
      sessionKey := "D|S1"
      group := "D"
      stage := 2
      draftText := "메모" }

/-- A session whose prewriting block already holds text. -/
def prefilledSession : Session :=
  { baseSession with preText := "사전 글", preSubmittedAt := 1 }

/-- A session whose final block already holds text. -/
def finalizedSession : Session :=
  { baseSession with
      finalText := "첫 제출"
      finalSubmittedAt := 1
      stage := 4 }

/-- The room id `assignPartnerRecord` settles on for a concrete partner:
the record's own room if set, else the partner's, else a fresh pair room. -/
def assignRoomId (h : String → String) (P Q : Session) : String :=
  if P.roomId ≠ "" then P.roomId
  else if Q.roomId ≠ "" then Q.roomId
  else makePairRoomId h P.sessionKey Q.sessionKey

/-- The state of the requesting record after a concrete partner assign. -/
def assignedRecord (h : String → String) (now : Nat) (P Q : Session) :
    Session :=
  { P with
      roomId := assignRoomId h P Q
      partnerStudentId := Q.studentId
      partnerName := Q.studentName
      updatedAt := now }

/-- The state of the partner record after a concrete partner assign. -/
def assignedPartner (h : String → String) (now : Nat) (P Q : Session) :
    Session :=
  { Q with
      roomId := assignRoomId h P Q
      partnerStudentId := P.studentId
      partnerName := P.studentName
      updatedAt := now }

/-- The in-place clearing `clearPartnerRecord` applies to one side. -/
def clearedOf (now : Nat) (s : Session) : Session :=
  { s with partnerStudentId := "", partnerName := "", updatedAt := now }

/-- A second group-"A" session, pairable with `baseSession`. -/
def aPartnerSession : Session :=
  { baseSession with
      sessionKey := "A|S2"
      studentId := "S2"
      studentName := "Park" }

/-- A group-"B" session, used to exercise a cross-group assign. -/
def bPartnerSession : Session :=
  { baseSession with
      sessionKey := "B|S2"
      group := "B"
      studentId := "S2"
      studentName := "Park" }

/-- A pairing declaration row for group "A" carrying an explicit room id. -/
def pairRow : MatchRow :=
  { roomId := "r_declared", studentIdA := "S1", nameA := "Kim",
    studentIdB := "S2", nameB := "Park", group := "A" }

/-- The record `ensureSession` creates for "a"/"S1"/"Kim" when `pairRow`
matches: the declaration's room and partner fields are pre-wired. -/
def matchedSession : Session :=
  { baseSession with
      roomId := "r_declared"
      partnerStudentId := "S2"
      partnerName := "Park" }

/-! ## Helper lemmas -/

/-- A string with a non-empty character list stays non-empty under append. -/
theorem string_append_ne_empty (s t : String) (hs : s.data ≠ []) :
    s ++ t ≠ "" := by
  intro hcontra
  apply hs
  have hd := congrArg String.data hcontra
  rw [String.data_append] at hd
  exact (List.append_eq_nil.mp hd).1

/-- Splitting at a separator character absent from both left parts is
unambiguous. -/
theorem pipe_append_inj {l1 l2 r1 r2 : List Char}
    (h1 : '|' ∉ l1) (h2 : '|' ∉ l2)
    (heq : l1 ++ '|' :: r1 = l2 ++ '|' :: r2) : l1 = l2 ∧ r1 = r2 := by
  induction l1 generalizing l2 with
  | nil =>
    cases l2 with
    | nil => simpa using heq
    | cons c cs =>
      simp only [List.nil_append, List.cons_append, List.cons.injEq] at heq
      refine absurd ?_ h2
      rw [heq.1]
      exact List.mem_cons_self c _
  | cons c cs ih =>
    cases l2 with
    | nil =>
      simp only [List.cons_append, List.nil_append, List.cons.injEq] at heq
      refine absurd ?_ h1
      rw [← heq.1]
      exact List.mem_cons_self c _
    | cons d ds =>
      simp only [List.cons_append, List.cons.injEq] at heq
      obtain ⟨hcd, htail⟩ := heq
      have h1' : '|' ∉ cs := fun hm => h1 (List.mem_cons_of_mem _ hm)
      have h2' : '|' ∉ ds := fun hm => h2 (List.mem_cons_of_mem _ hm)
      obtain ⟨hl, hr⟩ := ih h1' h2' htail
      exact ⟨by rw [hcd, hl], hr⟩

/-- The character list underlying `a ++ "|" ++ b`. -/
theorem data_pipe_key (g s : String) :
    (g ++ "|" ++ s).data = g.data ++ '|' :: s.data := by
  rw [String.data_append, String.data_append]
  have hpipe : ("|" : String).data = ['|'] := rfl
  rw [hpipe, List.append_assoc, List.singleton_append]

/-! ## C3: pair-room symmetry -/

/-- C3: for every digest function and all strings `a` and `b`,
`makePairRoomId h a b = makePairRoomId h b a` — the two keys are sorted
lexicographically before hashing, so the pair-room id is order-independent. -/
theorem C3_pairRoomId_symm (h : String → String) (a b : String) :
    makePairRoomId h a b = makePairRoomId h b a := by
  unfold makePairRoomId
  rcases lt_trichotomy (jsTrim a) (jsTrim b) with hlt | heq | hgt
  · simp only [if_pos hlt, if_neg (asymm hlt)]
  · simp only [heq]
  · simp only [if_pos hgt, if_neg (asymm hgt)]

/-! ## C6: session key -/

/-- C6 (amended): `buildSessionKey` fails with a `ValidationError` when the
uppercased group or the trimmed id is empty; otherwise it returns the
uppercased group and the trimmed id joined by `"|"`; and the result is
collision-free for distinct normalized pairs as long as the normalized group
does not itself contain the `"|"` separator. -/
theorem C6_sessionKey_spec :
    (∀ g s : String, ((jsUpper g) = "" ∨ (jsTrim s) = "") →
      buildSessionKey g s = .error ⟨400, "집단과 식별 번호가 필요합니다."⟩) ∧
    (∀ g s : String, (jsUpper g) ≠ "" → (jsTrim s) ≠ "" →
      buildSessionKey g s = .ok ((jsUpper g) ++ "|" ++ (jsTrim s))) ∧
    (∀ g1 s1 g2 s2 k,
      '|' ∉ (jsUpper g1).data → '|' ∉ (jsUpper g2).data →
      buildSessionKey g1 s1 = .ok k → buildSessionKey g2 s2 = .ok k →
      (jsUpper g1) = (jsUpper g2) ∧ (jsTrim s1) = (jsTrim s2)) := by
  refine ⟨?_, ?_, ?_⟩
  · intro g s hempty
    unfold buildSessionKey
    rw [if_pos hempty]
  · intro g s hg hs
    unfold buildSessionKey
    rw [if_neg (by push_neg; exact ⟨hg, hs⟩)]
  · intro g1 s1 g2 s2 k hg1 hg2 h1 h2
    simp only [buildSessionKey] at h1 h2
    split at h1
    · exact absurd h1 (by simp)
    · split at h2
      · exact absurd h2 (by simp)
      · have hk1 : (jsUpper g1) ++ "|" ++ (jsTrim s1) = k := by
          injection h1
        have hk2 : (jsUpper g2) ++ "|" ++ (jsTrim s2) = k := by
          injection h2
        have hdata :
            (jsUpper g1).data ++ '|' :: (jsTrim s1).data =
              (jsUpper g2).data ++ '|' :: (jsTrim s2).data := by
          have := congrArg String.data (hk1.trans hk2.symm)
          rwa [data_pipe_key, data_pipe_key] at this
        obtain ⟨hg, hs⟩ := pipe_append_inj hg1 hg2 hdata
        exact ⟨String.ext hg, String.ext hs⟩

/-- C6 counterexample: two distinct already-normalized (group, id) pairs
collide when the group contains the separator: `("A|B", "C")` and
`("A", "B|C")` both map to the key `"A|B|C"`. -/
theorem C6_counterexample :
    buildSessionKey "A|B" "C" = .ok "A|B|C" ∧
    buildSessionKey "A" "B|C" = .ok "A|B|C" ∧
    ¬(("A|B" : String) = "A" ∧ ("C" : String) = "B|C") := by
  refine ⟨rfl, rfl, by decide⟩

/-- C6 witness: concrete instantiation of the session-key theorem. -/
theorem C6_sessionKey_spec_witness :
    buildSessionKey "a" " s1 " = .ok "A|s1" ∧
    buildSessionKey "" "s1" = .error ⟨400, "집단과 식별 번호가 필요합니다."⟩ := by
  constructor
  · exact C6_sessionKey_spec.2.1 "a" " s1 " (by decide) (by decide)
  · exact C6_sessionKey_spec.1 "" "s1" (by decide)

/-! ## C9: presence TTL -/

/-- Setting a presence key makes it readable. -/
theorem presenceGet_set (m : PresenceMap) (key : String) (ts : Nat) :
    presenceGet (presenceSet m key ts) key = some ts := by
  induction m with
  | nil => simp [presenceSet, presenceGet, List.find?]
  | cons e rest ih =>
    by_cases hek : e.fst = key
    · simp [presenceSet, if_pos hek, presenceGet, List.find?]
    · simp only [presenceSet, if_neg hek]
      unfold presenceGet at ih ⊢
      rw [List.find?_cons_of_neg _ (by simpa using hek)]
      exact ih

/-- C9: the presence summary classifies a participant with a recorded
positive heartbeat as online exactly when `now - lastSeen < TTL`; a touch
followed immediately by a summary reports online with the touched timestamp;
and a participant with no recorded heartbeat is reported offline with
`lastSeen = 0`. -/
theorem C9_presence_ttl :
    (∀ now m roomId sid, roomId ≠ "" → sid ≠ "" → 0 < now →
      (touchPresence now m roomId sid).1 = true ∧
      (buildPresenceSummary now (touchPresence now m roomId sid).2.2
          roomId sid "").1 = ⟨now, true⟩) ∧
    (∀ now m roomId sid t, roomId ≠ "" → sid ≠ "" → 0 < t →
      presenceGet m (roomId ++ "|" ++ sid) = some t →
      (buildPresenceSummary now m roomId sid "").1.lastSeen = t ∧
      ((buildPresenceSummary now m roomId sid "").1.online = true ↔
        now - t < PRESENCE_TTL_MS)) ∧
    (∀ now m roomId sid,
      presenceGet m (roomId ++ "|" ++ sid) = none →
      (buildPresenceSummary now m roomId sid "").1 = ⟨0, false⟩) := by
  refine ⟨?_, ?_, ?_⟩
  · intro now m roomId sid hr hs hnow
    have hcond : ¬(roomId = "" ∨ sid = "") := by push_neg; exact ⟨hr, hs⟩
    refine ⟨by simp [touchPresence, if_neg hcond], ?_⟩
    simp only [touchPresence, if_neg hcond]
    simp only [buildPresenceSummary, readPresence, if_neg hcond]
    rw [presenceGet_set]
    simp [isOnline, PRESENCE_TTL_MS]
    omega
  · intro now m roomId sid t hr hs ht hget
    have hcond : ¬(roomId = "" ∨ sid = "") := by push_neg; exact ⟨hr, hs⟩
    simp only [buildPresenceSummary, readPresence, if_neg hcond, hget]
    refine ⟨by trivial, ?_⟩
    simp [isOnline]
    omega
  · intro now m roomId sid hget
    by_cases hcond : roomId = "" ∨ sid = ""
    · simp [buildPresenceSummary, readPresence, if_pos hcond, isOnline]
    · simp [buildPresenceSummary, readPresence, if_neg hcond, hget, isOnline]

/-- C9 witness: a touch at time 100 followed by a summary at time 100 is
online; an empty registry reports offline with `lastSeen = 0`. -/
theorem C9_presence_ttl_witness :
    (touchPresence 100 [] "room1" "s1").1 = true ∧
    (buildPresenceSummary 100 (touchPresence 100 [] "room1" "s1").2.2
        "room1" "s1" "").1 = ⟨100, true⟩ ∧
    (buildPresenceSummary 99999 [] "room1" "s1" "").1 = ⟨0, false⟩ := by
  obtain ⟨h1, h2⟩ :=
    C9_presence_ttl.1 100 [] "room1" "s1" (by decide) (by decide) (by decide)
  exact ⟨h1, h2, C9_presence_ttl.2.2 99999 [] "room1" "s1" rfl⟩

/-! ## C10: freshly created sessions -/

/-- A pair-room id is never empty (it carries the `r_` marker). -/
theorem makePairRoomId_ne_empty (h : String → String) (a b : String) :
    makePairRoomId h a b ≠ "" := by
  unfold makePairRoomId
  exact string_append_ne_empty "r_" _ (by decide)

/-- Every hint the matchup scan returns takes its room id from the matched
declaration row: the row's stored room when present, else the symmetric
pair-room id over the hint's two keys. -/
theorem findMatchLoop_roomId (h : String → String)
    (ug sid sname : String) (rows : List MatchRow) (hint : PartnerHint)
    (hm : findMatchLoop h ug sid sname rows = some hint) :
    ∃ row ∈ rows, hint.roomId =
      (if row.roomId ≠ "" then row.roomId
       else makePairRoomId h hint.keyA hint.keyB) := by
  induction rows with
  | nil => exact absurd hm (by simp [findMatchLoop])
  | cons row rest ih =>
    simp only [findMatchLoop] at hm
    split at hm
    · obtain ⟨r, hr, heq⟩ := ih hm
      exact ⟨r, List.mem_cons_of_mem _ hr, heq⟩
    · split at hm
      · injection hm with hhint
        subst hhint
        exact ⟨row, List.mem_cons_self _ _, rfl⟩
      · obtain ⟨r, hr, heq⟩ := ih hm
        exact ⟨r, List.mem_cons_of_mem _ hr, heq⟩

/-- C10: a session newly created by the get-or-create path starts at stage 1
with all four content blocks empty and zero timestamps, and with a non-empty
room id — the solo room when no pairing declaration matched (or when the
group is not consulted for pairings), and the pair room of the matched
declaration otherwise: the declaration's stored room id when it carries one,
else the symmetric pair-room id derived from the declaration's two keys. -/
theorem C10_fresh_session (h : String → String) (now : Nat)
    (matchups : List MatchRow) (sessions : List Session)
    (group sid name key : String) (s : Session) (rest : List Session)
    (hkey : buildSessionKey group sid = .ok key)
    (hnew : findSession sessions key = none)
    (hens : ensureSession h now matchups sessions group sid name =
      .ok (rest, s)) :
    rest = sessions ++ [s] ∧ s.stage = 1 ∧
    s.preText = "" ∧ s.preSubmittedAt = 0 ∧
    s.draftText = "" ∧ s.draftSavedAt = 0 ∧
    s.notesText = "" ∧ s.notesUpdatedAt = 0 ∧
    s.finalText = "" ∧ s.finalSubmittedAt = 0 ∧
    s.roomId ≠ "" ∧
    (¬(jsUpper group = "A" ∨ jsUpper group = "B") →
      s.roomId = makeSoloRoomId h group sid) ∧
    ((jsUpper group = "A" ∨ jsUpper group = "B") →
      findMatchForStudent h matchups group sid name = none →
      s.roomId = makeSoloRoomId h group sid) ∧
    ((jsUpper group = "A" ∨ jsUpper group = "B") →
      ∀ hint, findMatchForStudent h matchups group sid name = some hint →
        s.roomId = hint.roomId ∧
        ∃ row ∈ matchups, s.roomId =
          (if row.roomId ≠ "" then row.roomId
           else makePairRoomId h hint.keyA hint.keyB)) := by
  by_cases hab : jsUpper group = "A" ∨ jsUpper group = "B"
  · cases hmatch : findMatchForStudent h matchups group sid name with
    | none =>
      simp only [ensureSession, hkey, hnew, createSession, if_pos hab,
        hmatch] at hens
      injection hens with hpair
      injection hpair with h1 h2
      subst h2
      refine ⟨h1.symm, rfl, rfl, rfl, rfl, rfl, rfl, rfl, rfl, rfl, ?_,
        fun _ => rfl, fun _ _ => rfl,
        fun _ hint hm => Option.noConfusion hm⟩
      exact string_append_ne_empty "solo_" _ (by decide)
    | some hint =>
      simp only [ensureSession, hkey, hnew, createSession, if_pos hab,
        hmatch] at hens
      injection hens with hpair
      injection hpair with h1 h2
      subst h2
      have hm2 : findMatchLoop h (jsUpper group) (jsTrim sid) (jsTrim name)
          matchups = some hint := hmatch
      obtain ⟨row, hrowmem, hroweq⟩ :=
        findMatchLoop_roomId h (jsUpper group) (jsTrim sid) (jsTrim name)
          matchups hint hm2
      have hroomne : hint.roomId ≠ "" := by
        rw [hroweq]
        split
        · assumption
        · exact makePairRoomId_ne_empty h hint.keyA hint.keyB
      refine ⟨h1.symm, rfl, rfl, rfl, rfl, rfl, rfl, rfl, rfl, rfl, ?_,
        fun habs => absurd hab habs,
        fun _ hnone => by simp [hmatch] at hnone,
        fun _ hint2 hm3 => ?_⟩
      · rw [show (if hint.roomId ≠ "" then hint.roomId
            else makePairRoomId h hint.keyA hint.keyB) = hint.roomId
            from if_pos hroomne]
        exact hroomne
      · injection hm3 with hh
        subst hh
        have hs : (if hint.roomId ≠ "" then hint.roomId
            else makePairRoomId h hint.keyA hint.keyB) = hint.roomId :=
          if_pos hroomne
        refine ⟨hs, row, hrowmem, ?_⟩
        rw [hs]
        exact hroweq
  · simp only [ensureSession, hkey, hnew, createSession, if_neg hab] at hens
    injection hens with hpair
    injection hpair with h1 h2
    subst h2
    refine ⟨h1.symm, rfl, rfl, rfl, rfl, rfl, rfl, rfl, rfl, rfl, ?_,
      fun _ => rfl, fun habs => absurd habs hab,
      fun habs => absurd habs hab⟩
    exact string_append_ne_empty "solo_" _ (by decide)

/-- C10 witness: a concrete fresh creation with no matching declaration
gets the solo room, and one whose declaration row matches gets the
declaration's room, pre-wired with the partner fields. -/
theorem C10_fresh_session_witness :
    (∃ s : Session,
      ensureSession md5stub 0 [] [] "c" " 7 " "Lee" = .ok ([s], s) ∧
      s.stage = 1 ∧ s.preText = "" ∧ s.roomId = "solo_0123456789ab") ∧
    (∃ s : Session,
      ensureSession md5stub 0 [pairRow] [] "a" "S1" "Kim" = .ok ([s], s) ∧
      s.stage = 1 ∧ s.roomId = "r_declared" ∧ s.roomId ≠ "" ∧
      pairRow.roomId = "r_declared") := by
  constructor
  · refine ⟨{ sessionKey := "C|7", group := "C", studentId := "7",
              studentName := "Lee", roomId := "solo_0123456789ab",
              stage := 1, preText := "", preSubmittedAt := 0,
              draftText := "", draftSavedAt := 0, notesText := "",
              notesUpdatedAt := 0, finalText := "", finalSubmittedAt := 0,
              partnerStudentId := "", partnerName := "", createdAt := 0,
              updatedAt := 0 }, rfl, ?_⟩
    have hfacts := C10_fresh_session md5stub 0 [] [] "c" " 7 " "Lee" "C|7"
      _ _ rfl rfl rfl
    exact ⟨hfacts.2.1, hfacts.2.2.1, rfl⟩
  · refine ⟨matchedSession, rfl, ?_⟩
    have hfacts := C10_fresh_session md5stub 0 [pairRow] [] "a" "S1" "Kim"
      "A|S1" matchedSession [matchedSession] rfl rfl rfl
    have hhint := (hfacts.2.2.2.2.2.2.2.2.2.2.2.2.2 (by decide)
      { roomId := "r_declared", partnerId := "S2", partnerName := "Park",
        keyA := "S1", keyB := "S2" } rfl).1
    exact ⟨hfacts.2.1, hhint, hfacts.2.2.2.2.2.2.2.2.2.2.1, rfl⟩

/-! ## Stage-machine characterizations -/

/-- Successful `handleAdvanceToPeer` keeps the group and moves the stage to
2, 3 (only when the uppercased group differs from "C") or 4, or leaves it. -/
theorem handleAdvanceToPeer_ok {now : Nat} {r r1 : Session}
    (hc : handleAdvanceToPeer now r = .ok r1) :
    r1.group = r.group ∧ (r1.stage = r.stage ∨ r1.stage = 2 ∨
      (r1.stage = 3 ∧ jsUpper r.group ≠ "C") ∨ r1.stage = 4) := by
  simp only [handleAdvanceToPeer] at hc
  repeat' split at hc
  all_goals
    first
      | exact Except.noConfusion hc
      | (injection hc with h; subst h; simp_all [ensureStage]; done)

/-- Successful `handleAdvanceToFinal` keeps the group and sets stage 4. -/
theorem handleAdvanceToFinal_ok {now : Nat} {r r1 : Session}
    (hc : handleAdvanceToFinal now r = .ok r1) :
    r1.group = r.group ∧ r1.stage = 4 := by
  simp only [handleAdvanceToFinal] at hc
  repeat' split at hc
  all_goals
    first
      | exact Except.noConfusion hc
      | (injection hc with h; subst h; simp_all [ensureStage]; done)

/-- Successful `handleJump` keeps the group and either leaves the stage or
sets it to the desired stage; a desired stage of 3 requires group A or B. -/
theorem handleJump_ok {now : Nat} {r r1 : Session} {d : Nat}
    (hc : handleJump now r d = .ok r1) :
    r1.group = r.group ∧ (r1.stage = r.stage ∨ (r1.stage = d ∧
      (d = 3 → jsUpper r.group = "A" ∨ jsUpper r.group = "B"))) := by
  simp only [handleJump] at hc
  repeat' split at hc
  all_goals
    first
      | exact Except.noConfusion hc
      | (injection hc with h; subst h; simp_all [ensureStage]; done)
      | (injection hc with h; subst h;
         exact ⟨rfl, Or.inr ⟨rfl, fun h3 => by tauto⟩⟩)

/-- Successful `handleRegress` keeps the group and moves the stage to 1, 2,
or 3 (3 only when the uppercased group differs from "C"), or leaves it. -/
theorem handleRegress_ok {now : Nat} {r r1 : Session}
    (hc : handleRegress now r = .ok r1) :
    r1.group = r.group ∧ (r1.stage = r.stage ∨ r1.stage = 1 ∨
      r1.stage = 2 ∨ (r1.stage = 3 ∧ jsUpper r.group ≠ "C")) := by
  simp only [handleRegress] at hc
  repeat' split at hc
  all_goals
    first
      | exact Except.noConfusion hc
      | (injection hc with h; subst h; simp_all [ensureStage]; done)

/-- Successful prewriting submission keeps the group; the stage is kept or
bumped to 2. -/
theorem postPrewriting_ok {now : Nat} {r r1 : Session} {t : String}
    (hc : postPrewriting now r t = .ok r1) :
    r1.group = r.group ∧ (r1.stage = r.stage ∨ r1.stage = 2) := by
  simp only [postPrewriting] at hc
  repeat' split at hc
  all_goals
    first
      | exact Except.noConfusion hc
      | (injection hc with h; subst h; simp_all [ensureStage]; done)

/-- Successful draft save keeps the group; the stage is kept or bumped to 2. -/
theorem postDraft_ok {now : Nat} {r r1 : Session} {t : String}
    (hc : postDraft now r t = .ok r1) :
    r1.group = r.group ∧ (r1.stage = r.stage ∨ r1.stage = 2) := by
  simp only [postDraft] at hc
  repeat' split at hc
  all_goals
    first
      | exact Except.noConfusion hc
      | (injection hc with h; subst h; simp_all [ensureStage]; done)

/-- Successful notes save keeps the group; the stage is kept or bumped to 3,
the latter only for groups A and B. -/
theorem postNotes_ok {now : Nat} {r r1 : Session} {t : String}
    (hc : postNotes now r t = .ok r1) :
    r1.group = r.group ∧ (r1.stage = r.stage ∨ (r1.stage = 3 ∧
      (jsUpper r.group = "A" ∨ jsUpper r.group = "B"))) := by
  simp only [postNotes] at hc
  repeat' split at hc
  all_goals
    first
      | exact Except.noConfusion hc
      | (injection hc with h; subst h; simp_all [ensureStage]; done)

/-- Successful final submission keeps the group and sets stage 4. -/
theorem postFinal_ok {now : Nat} {r r1 : Session} {t : String}
    (hc : postFinal now r t = .ok r1) :
    r1.group = r.group ∧ r1.stage = 4 := by
  simp only [postFinal] at hc
  repeat' split at hc
  all_goals
    first
      | exact Except.noConfusion hc
      | (injection hc with h; subst h; simp_all [ensureStage]; done)

/-- The jump route's clamp lands in 1..5. -/
theorem clampJumpStage_bounds (q : Int) :
    1 ≤ clampJumpStage q ∧ clampJumpStage q ≤ 5 := by
  unfold clampJumpStage
  simp only [min_def, max_def]
  repeat' split
  all_goals omega

/-- `runOp` never changes the group. -/
theorem runOp_group (now : Nat) (r : Session) (op : Op) :
    (runOp now r op).group = r.group := by
  unfold runOp
  rcases hc : applyOp now r op with e | r1
  · simp only [hc]
  · simp only [hc]
    cases op <;> simp only [applyOp] at hc
    case advance => exact (handleAdvanceToPeer_ok hc).1
    case advanceFinal => exact (handleAdvanceToFinal_ok hc).1
    case jump q => exact (handleJump_ok hc).1
    case regress => exact (handleRegress_ok hc).1
    case prewriting t => exact (postPrewriting_ok hc).1
    case draft t => exact (postDraft_ok hc).1
    case notes t => exact (postNotes_ok hc).1
    case final t => exact (postFinal_ok hc).1

/-- One route call keeps the stage within 1..5. -/
theorem runOp_stage_bounds (now : Nat) (r : Session) (op : Op)
    (h1 : 1 ≤ r.stage) (h5 : r.stage ≤ 5) :
    1 ≤ (runOp now r op).stage ∧ (runOp now r op).stage ≤ 5 := by
  unfold runOp
  rcases hc : applyOp now r op with e | r1
  · simp only [hc]; exact ⟨h1, h5⟩
  · simp only [hc]
    cases op <;> simp only [applyOp] at hc
    case advance =>
      rcases (handleAdvanceToPeer_ok hc).2 with h | h | ⟨h, -⟩ | h <;> omega
    case advanceFinal =>
      have h := (handleAdvanceToFinal_ok hc).2; omega
    case jump q =>
      have hb := clampJumpStage_bounds q
      rcases (handleJump_ok hc).2 with h | ⟨h, -⟩ <;> omega
    case regress =>
      rcases (handleRegress_ok hc).2 with h | h | h | ⟨h, -⟩ <;> omega
    case prewriting t =>
      rcases (postPrewriting_ok hc).2 with h | h <;> omega
    case draft t =>
      rcases (postDraft_ok hc).2 with h | h <;> omega
    case notes t =>
      rcases (postNotes_ok hc).2 with h | ⟨h, -⟩ <;> omega
    case final t =>
      have h := (postFinal_ok hc).2; omega

/-- One route call on a group-"C" session never produces stage 3. -/
theorem runOp_stage_ne3 (now : Nat) (r : Session) (op : Op)
    (hg : jsUpper r.group = "C") (hs : r.stage ≠ 3) :
    (runOp now r op).stage ≠ 3 := by
  unfold runOp
  rcases hc : applyOp now r op with e | r1
  · simp only [hc]; exact hs
  · simp only [hc]
    cases op <;> simp only [applyOp] at hc
    case advance =>
      rcases (handleAdvanceToPeer_ok hc).2 with h | h | ⟨-, habs⟩ | h <;>
        first | omega | exact absurd hg habs
    case advanceFinal =>
      have h := (handleAdvanceToFinal_ok hc).2; omega
    case jump q =>
      rcases (handleJump_ok hc).2 with h | ⟨h, himp⟩
      · omega
      · intro h3
        rcases himp (by omega) with hab | hab <;> rw [hg] at hab <;>
          exact absurd hab (by decide)
    case regress =>
      rcases (handleRegress_ok hc).2 with h | h | h | ⟨-, habs⟩ <;>
        first | omega | exact absurd hg habs
    case prewriting t =>
      rcases (postPrewriting_ok hc).2 with h | h <;> omega
    case draft t =>
      rcases (postDraft_ok hc).2 with h | h <;> omega
    case notes t =>
      rcases (postNotes_ok hc).2 with h | ⟨h, hab⟩
      · omega
      · rcases hab with hab | hab <;> rw [hg] at hab <;>
          exact absurd hab (by decide)
    case final t =>
      have h := (postFinal_ok hc).2; omega

/-- Stage bounds are preserved along any sequence of route calls. -/
theorem runOps_stage_bounds (ops : List (Nat × Op)) (r : Session)
    (h1 : 1 ≤ r.stage) (h5 : r.stage ≤ 5) :
    1 ≤ (runOps r ops).stage ∧ (runOps r ops).stage ≤ 5 := by
  induction ops generalizing r with
  | nil => exact ⟨h1, h5⟩
  | cons p rest ih =>
    obtain ⟨t, op⟩ := p
    obtain ⟨g1, g5⟩ := runOp_stage_bounds t r op h1 h5
    exact ih (runOp t r op) g1 g5

/-- Stage 3 stays unreachable along any route sequence for group "C". -/
theorem runOps_stage_ne3 (ops : List (Nat × Op)) (r : Session)
    (hg : r.group = "C") (hs : r.stage ≠ 3) :
    (runOps r ops).stage ≠ 3 := by
  induction ops generalizing r with
  | nil => exact hs
  | cons p rest ih =>
    obtain ⟨t, op⟩ := p
    have hg' : (runOp t r op).group = "C" := by rw [runOp_group, hg]
    have hs' : (runOp t r op).stage ≠ 3 :=
      runOp_stage_ne3 t r op (by rw [hg]; rfl) hs
    exact ih (runOp t r op) hg' hs'

/-- The record built by a successful `createSession` starts at stage 1 and
carries the uppercased group. -/
theorem createSession_fields {h : String → String} {now : Nat}
    {g sid name : String} {hint : Option PartnerHint} {s0 : Session}
    (hc : createSession h now g sid name hint = .ok s0) :
    s0.stage = 1 ∧ s0.group = jsUpper g := by
  simp only [createSession] at hc
  split at hc
  · exact absurd hc (by simp)
  · injection hc with hs; subst hs; exact ⟨rfl, rfl⟩

/-! ## C1: stage range invariant -/

/-- C1 (amended): starting from any freshly created session, every sequence
of advance, advance-to-final, jump (with the route's own clamp applied to
the raw request) and regress calls — and content submissions — keeps the
stage within 1 to 5 inclusive.  The clamp admits a requested stage of 5,
one above the terminal stage, so 4 is not an upper bound. -/
theorem C1_stage_bounds (h : String → String) (now : Nat)
    (group sid name : String) (hint : Option PartnerHint) (s0 : Session)
    (hcreate : createSession h now group sid name hint = .ok s0)
    (ops : List (Nat × Op)) :
    1 ≤ (runOps s0 ops).stage ∧ (runOps s0 ops).stage ≤ 5 := by
  have hfields := createSession_fields hcreate
  exact runOps_stage_bounds ops s0 (by omega) (by omega)

/-- C1 witness: the bounds hold on a concrete fresh session and a concrete
jump call. -/
theorem C1_stage_bounds_witness :
    1 ≤ (runOps baseSession [(1, Op.jump 5)]).stage ∧
    (runOps baseSession [(1, Op.jump 5)]).stage ≤ 5 :=
  C1_stage_bounds md5stub 0 "A" "S1" "Kim" none baseSession rfl
    [(1, Op.jump 5)]

/-- C1 counterexample: the jump route clamps the requested stage to at most
5, not 4, and `handleJump` has no guard for a desired stage of 5 — a fresh
session jumps straight to stage 5, exceeding the claimed range 1..4. -/
theorem C1_counterexample :
    createSession md5stub 0 "A" "S1" "Kim" none = .ok baseSession ∧
    (runOps baseSession [(1, Op.jump 5)]).stage = 5 ∧
    ¬(runOps baseSession [(1, Op.jump 5)]).stage ≤ 4 :=
  ⟨rfl, rfl, by decide⟩

/-! ## C2: write-once blocks -/

/-- C2 (amended): a second submission of the prewriting block is rejected
with a `ConflictError` and the stored record is unchanged by the rejected
call; the final block, however, has no write-once guard — a further
submission overwrites the stored final text. -/
theorem C2_write_once (now : Nat) (r : Session) (t : String) :
    (t ≠ "" → r.preText ≠ "" →
      postPrewriting now r t =
        .error ⟨400, "이미 사전 글쓰기가 제출되었습니다."⟩ ∧
      runOp now r (Op.prewriting t) = r) ∧
    (t ≠ "" → jsTrim t ≠ "" →
      postFinal now r t =
        .ok (ensureStage now
          { r with finalText := jsTrim t, finalSubmittedAt := now } 4)) := by
  constructor
  · intro ht hpre
    have herr : postPrewriting now r t =
        .error ⟨400, "이미 사전 글쓰기가 제출되었습니다."⟩ := by
      simp only [postPrewriting]
      rw [if_neg ht, if_pos hpre]
    refine ⟨herr, ?_⟩
    simp only [runOp, applyOp, herr]
  · intro ht htrim
    simp only [postFinal]
    rw [if_neg ht, if_neg htrim]

/-- C2 witness: a session with stored prewriting rejects a new prewriting
submission and is left unchanged. -/
theorem C2_write_once_witness :
    postPrewriting 3 prefilledSession "새 글" =
      .error ⟨400, "이미 사전 글쓰기가 제출되었습니다."⟩ ∧
    runOp 3 prefilledSession (Op.prewriting "새 글") = prefilledSession :=
  (C2_write_once 3 prefilledSession "새 글").1 (by decide) (by decide)

/-- C2 counterexample: a session whose final block already holds text
accepts a second final submission without any `ConflictError`, and the
stored final text changes. -/
theorem C2_counterexample :
    finalizedSession.finalText = "첫 제출" ∧
    postFinal 9 finalizedSession "둘째 제출" =
      .ok { finalizedSession with
              finalText := "둘째 제출"
              finalSubmittedAt := 9
              stage := 4
              updatedAt := 9 } ∧
    ("둘째 제출" : String) ≠ "첫 제출" :=
  ⟨rfl, rfl, by decide⟩

/-! ## C4: advanceToFinal at stage 1 -/

/-- C4 (amended): a peer-enabled group-"A" session at stage 1 with empty
draft and empty notes fails `advanceToFinal` with a `PreconditionError`, but
the error names the missing stage-3 notes (the notes guard fires first), not
the missing draft; the stage is unchanged by the failed call. -/
theorem C4_advanceFinal_missing_notes (now : Nat) (r : Session)
    (hg : jsUpper r.group = "A") (hstage : r.stage = 1)
    (hdraft : r.draftText = "") (hnotes : r.notesText = "") :
    handleAdvanceToFinal now r =
      .error ⟨400, "3단계 메모를 먼저 저장하세요."⟩ ∧
    runOp now r Op.advanceFinal = r := by
  have herr : handleAdvanceToFinal now r =
      .error ⟨400, "3단계 메모를 먼저 저장하세요."⟩ := by
    simp only [handleAdvanceToFinal]
    rw [if_pos ⟨Or.inl hg, hnotes⟩]
  refine ⟨herr, ?_⟩
  simp only [runOp, applyOp, herr]

/-- C4 witness: the concrete fresh group-"A" session. -/
theorem C4_advanceFinal_missing_notes_witness :
    handleAdvanceToFinal 2 baseSession =
      .error ⟨400, "3단계 메모를 먼저 저장하세요."⟩ ∧
    runOp 2 baseSession Op.advanceFinal = baseSession :=
  C4_advanceFinal_missing_notes 2 baseSession rfl rfl rfl rfl

/-- C4 counterexample: the error produced is the stage-3 notes message, and
that message differs from the stage-2 draft message — the failure does not
name the missing draft as the claim states. -/
theorem C4_counterexample :
    handleAdvanceToFinal 0 baseSession =
      .error ⟨400, "3단계 메모를 먼저 저장하세요."⟩ ∧
    ("3단계 메모를 먼저 저장하세요." : String) ≠
      "2단계 메모를 먼저 저장하세요." :=
  ⟨rfl, by decide⟩

/-! ## C5: stage 3 unreachable -/

/-- C5 (amended): for a freshly created session of group "C" (the only
non-peer group with its own transition rules), no sequence of route calls
ever leaves the session at stage 3.  (Other groups that are not peer-enabled
— anything besides A, B and C — can reach stage 3, see the counterexample.) -/
theorem C5_stage3_unreachable (h : String → String) (now : Nat)
    (group sid name : String) (hint : Option PartnerHint) (s0 : Session)
    (hcreate : createSession h now group sid name hint = .ok s0)
    (hg : s0.group = "C") (ops : List (Nat × Op)) :
    (runOps s0 ops).stage ≠ 3 := by
  have hfields := createSession_fields hcreate
  exact runOps_stage_ne3 ops s0 hg (by omega)

/-- C5 witness: a concrete group-"C" session never shows stage 3 under a
concrete sequence of draft, advance and jump calls. -/
theorem C5_stage3_unreachable_witness :
    (runOps cSession
      [(0, Op.draft "메모"), (1, Op.advance), (2, Op.jump 3)]).stage ≠ 3 :=
  C5_stage3_unreachable md5stub 0 "c" "S1" "Kim" none cSession rfl rfl
    [(0, Op.draft "메모"), (1, Op.advance), (2, Op.jump 3)]

/-- C5 counterexample: group "D" is not peer-enabled (the peer-enabled
groups are exactly A and B), yet a fresh group-"D" session reaches stage 3:
save a draft, then advance — `handleAdvanceToPeer` only special-cases group
"C" and sends every other group from stage 2 to stage 3. -/
theorem C5_counterexample :
    createSession md5stub 0 "D" "S1" "Kim" none = .ok dSession ∧
    ¬(dSession.group = "A" ∨ dSession.group = "B") ∧
    (runOps dSession [(0, Op.draft "메모"), (1, Op.advance)]).stage = 3 :=
  ⟨rfl, by decide, rfl⟩

/-! ## C7: advanceToPeer behaviour -/

/-- C7 (amended): `advanceToPeer` from stage 2 with an empty draft fails
with a `PreconditionError`; with a non-empty draft it moves to stage 4
exactly when the group is "C" and to stage 3 for every other group
(peer-enabled or not); from stage 3 it requires non-empty notes and moves
to stage 4; from any stage below 2 it moves to stage 2 unconditionally. -/
theorem C7_advanceToPeer_spec (now : Nat) (r : Session) :
    (jsStage r.stage = 2 → r.draftText = "" →
      handleAdvanceToPeer now r =
        .error ⟨400, "2단계 메모를 먼저 저장하세요."⟩) ∧
    (jsStage r.stage = 2 → r.draftText ≠ "" → jsUpper r.group = "C" →
      handleAdvanceToPeer now r = .ok (ensureStage now r 4)) ∧
    (jsStage r.stage = 2 → r.draftText ≠ "" → jsUpper r.group ≠ "C" →
      handleAdvanceToPeer now r = .ok (ensureStage now r 3)) ∧
    (jsStage r.stage = 3 → r.notesText = "" →
      handleAdvanceToPeer now r =
        .error ⟨400, "3단계 메모를 먼저 저장하세요."⟩) ∧
    (jsStage r.stage = 3 → r.notesText ≠ "" →
      handleAdvanceToPeer now r = .ok (ensureStage now r 4)) ∧
    (jsStage r.stage < 2 →
      handleAdvanceToPeer now r = .ok (ensureStage now r 2)) := by
  refine ⟨fun h1 h2 => ?_, fun h1 h2 h3 => ?_, fun h1 h2 h3 => ?_,
    fun h1 h2 => ?_, fun h1 h2 => ?_, fun h1 => ?_⟩
  · simp only [handleAdvanceToPeer]; rw [if_pos h1, if_pos h2]
  · simp only [handleAdvanceToPeer]; rw [if_pos h1, if_neg h2, if_pos h3]
  · simp only [handleAdvanceToPeer]; rw [if_pos h1, if_neg h2, if_neg h3]
  · simp only [handleAdvanceToPeer]
    rw [if_neg (by omega), if_pos h1, if_pos h2]
  · simp only [handleAdvanceToPeer]
    rw [if_neg (by omega), if_pos h1, if_neg h2]
  · simp only [handleAdvanceToPeer]
    rw [if_neg (by omega), if_neg (by omega), if_pos h1]

/-- C7 witness: a group-"C" session at stage 2 with a saved draft advances
directly to stage 4 (peer stage skipped). -/
theorem C7_advanceToPeer_spec_witness :
    handleAdvanceToPeer 5 cDraftSession =
      .ok (ensureStage 5 cDraftSession 4) ∧
    (ensureStage 5 cDraftSession 4).stage = 4 :=
  ⟨(C7_advanceToPeer_spec 5 cDraftSession).2.1 rfl (by decide) rfl, rfl⟩

/-- C7 counterexample: group "D" is not peer-enabled, yet `advanceToPeer`
from stage 2 with a non-empty draft lands at stage 3, not directly at stage
4 as the claim states for non-peer-enabled groups. -/
theorem C7_counterexample :
    ¬(dDraftSession.group = "A" ∨ dDraftSession.group = "B") ∧
    handleAdvanceToPeer 0 dDraftSession =
      .ok (ensureStage 0 dDraftSession 3) ∧
    (ensureStage 0 dDraftSession 3).stage = 3 ∧
    (ensureStage 0 dDraftSession 3).stage ≠ 4 :=
  ⟨by decide, rfl, rfl, by decide⟩

/-! ## C8: partner symmetry -/

/-- `find?` over a mapped list whose mapping preserves the predicate. -/
theorem find?_map_congr {α : Type} (p : α → Bool) (g : α → α) (l : List α)
    (hg : ∀ s ∈ l, p (g s) = p s) :
    List.find? p (l.map g) = Option.map g (List.find? p l) := by
  induction l with
  | nil => rfl
  | cons a rest ih =>
    simp only [List.map_cons]
    by_cases hpa : p a = true
    · have hga : p (g a) = true := by
        rw [hg a (List.mem_cons_self a rest)]; exact hpa
      rw [List.find?_cons_of_pos _ hga, List.find?_cons_of_pos _ hpa]
      rfl
    · have hga : ¬p (g a) = true := by
        rw [hg a (List.mem_cons_self a rest)]; exact hpa
      rw [List.find?_cons_of_neg _ hga, List.find?_cons_of_neg _ hpa]
      exact ih fun s hs => hg s (List.mem_cons_of_mem a hs)

/-- `findSession` after a key-preserving keyed update. -/
theorem findSession_upd (l : List Session) (k k' : String)
    (f : Session → Session)
    (hf : ∀ s, s.sessionKey = k → (f s).sessionKey = s.sessionKey) :
    findSession (updateByKey l k f) k' =
      Option.map (fun s => if s.sessionKey = k then f s else s)
        (findSession l k') := by
  unfold findSession updateByKey
  refine find?_map_congr _ _ l fun s _ => ?_
  by_cases hs : s.sessionKey = k
  · simp only [if_pos hs]
    rw [hf s hs]
  · simp only [if_neg hs]

/-- Two keyed updates compose into one map. -/
theorem updateByKey_comp (l : List Session) (k1 k2 : String)
    (f1 f2 : Session → Session) :
    updateByKey (updateByKey l k1 f1) k2 f2 =
      l.map (fun s =>
        (fun t => if t.sessionKey = k2 then f2 t else t)
          (if s.sessionKey = k1 then f1 s else s)) := by
  unfold updateByKey
  rw [List.map_map]
  rfl

/-- C8 (amended): after `assign(P, partner = Q)` succeeds with an existing
concrete partner session `Q`, P stores Q's id, Q stores P's id, and both
carry the same room id; and after `clear(P)`, provided Q belongs to P's
group (partner resolution is group-scoped), neither side references the
other any more. -/
theorem C8_partner_assign_clear (h : String → String) (now now2 : Nat)
    (sessions : List Session) (P Q : Session)
    (hP : findSession sessions P.sessionKey = some P)
    (hQ : findSession sessions Q.sessionKey = some Q)
    (hUP : ∀ s ∈ sessions, s.sessionKey = P.sessionKey → s = P)
    (hUQ : ∀ s ∈ sessions, s.sessionKey = Q.sessionKey → s = Q)
    (hne : Q.sessionKey ≠ P.sessionKey)
    (hQkne : Q.sessionKey ≠ "")
    (hkeyQ : jsTrim Q.sessionKey = Q.sessionKey)
    (hQsid : Q.studentId ≠ "")
    (hfind2 : List.find?
        (fun s => s.group = P.group ∧ s.studentId = Q.studentId)
        sessions = some Q) :
    ∃ sessions1 sessions2,
      assignPartnerRecord h now sessions P.sessionKey
          ⟨Q.sessionKey, "", ""⟩ = .ok sessions1 ∧
      findSession sessions1 P.sessionKey =
        some (assignedRecord h now P Q) ∧
      findSession sessions1 Q.sessionKey =
        some (assignedPartner h now P Q) ∧
      (assignedRecord h now P Q).partnerStudentId = Q.studentId ∧
      (assignedPartner h now P Q).partnerStudentId = P.studentId ∧
      (assignedRecord h now P Q).roomId =
        (assignedPartner h now P Q).roomId ∧
      clearPartnerRecord now2 sessions1 P.sessionKey = .ok sessions2 ∧
      (findSession sessions2 P.sessionKey).map Session.partnerStudentId =
        some "" ∧
      (findSession sessions2 Q.sessionKey).map Session.partnerStudentId =
        some "" := by
  have hARkey : (assignedRecord h now P Q).sessionKey = P.sessionKey := rfl
  have hAPkey : (assignedPartner h now P Q).sessionKey = Q.sessionKey := rfl
  have hfp : ∀ s : Session, s.sessionKey = P.sessionKey →
      ((fun _ => assignedRecord h now P Q) s).sessionKey = s.sessionKey :=
    fun s hs => by
      show (assignedRecord h now P Q).sessionKey = s.sessionKey
      rw [hARkey, hs]
  have hfq : ∀ s : Session, s.sessionKey = Q.sessionKey →
      ((fun _ => assignedPartner h now P Q) s).sessionKey = s.sessionKey :=
    fun s hs => by
      show (assignedPartner h now P Q).sessionKey = s.sessionKey
      rw [hAPkey, hs]
  refine ⟨updateByKey
      (updateByKey sessions P.sessionKey
        (fun _ => assignedRecord h now P Q))
      Q.sessionKey (fun _ => assignedPartner h now P Q),
    updateByKey
      (updateByKey
        (updateByKey
          (updateByKey sessions P.sessionKey
            (fun _ => assignedRecord h now P Q))
          Q.sessionKey (fun _ => assignedPartner h now P Q))
        Q.sessionKey (clearedOf now2))
      P.sessionKey (clearedOf now2),
    ?_, ?_, ?_, rfl, rfl, rfl, ?_, ?_, ?_⟩
  · -- the assign call itself
    simp [assignPartnerRecord, hP, hkeyQ, hQ, hQkne, hne,
      assignedRecord, assignedPartner, assignRoomId]
  · -- P's record after assign
    rw [findSession_upd _ _ _ _ hfq, findSession_upd _ _ _ _ hfp, hP]
    simp [hARkey, Ne.symm hne]
  · -- Q's record after assign
    rw [findSession_upd _ _ _ _ hfq, findSession_upd _ _ _ _ hfp, hQ]
    simp [hne]
  · -- the clear call
    have hfindP1 : findSession
        (updateByKey
          (updateByKey sessions P.sessionKey
            (fun _ => assignedRecord h now P Q))
          Q.sessionKey (fun _ => assignedPartner h now P Q))
        P.sessionKey = some (assignedRecord h now P Q) := by
      rw [findSession_upd _ _ _ _ hfq, findSession_upd _ _ _ _ hfp, hP]
      simp [hARkey, Ne.symm hne]
    have hpartnerFind : List.find?
        (fun s => s.group = (assignedRecord h now P Q).group ∧
          s.studentId = (assignedRecord h now P Q).partnerStudentId)
        (updateByKey
          (updateByKey sessions P.sessionKey
            (fun _ => assignedRecord h now P Q))
          Q.sessionKey (fun _ => assignedPartner h now P Q)) =
        some (assignedPartner h now P Q) := by
      rw [updateByKey_comp]
      rw [find?_map_congr _ _ sessions ?hg]
      case hg =>
        intro s hmem
        by_cases hsp : s.sessionKey = P.sessionKey
        · have hsP := hUP s hmem hsp
          subst hsP
          simp [hsp, hARkey, Ne.symm hne, assignedRecord, assignedPartner]
        · by_cases hsq : s.sessionKey = Q.sessionKey
          · have hsQ := hUQ s hmem hsq
            subst hsQ
            simp [hsp, hsq, assignedRecord, assignedPartner]
          · simp [hsp, hsq]
      · have hbase : List.find?
            (fun s => s.group = (assignedRecord h now P Q).group ∧
              s.studentId = (assignedRecord h now P Q).partnerStudentId)
            sessions = some Q := hfind2
        rw [hbase]
        simp [hne, hAPkey]
    simp only [clearPartnerRecord, hfindP1, hpartnerFind]
    rw [if_pos (show
        (assignedRecord h now P Q).partnerStudentId ≠ "" from hQsid),
      if_pos (show
        (assignedPartner h now P Q).partnerStudentId =
          (assignedRecord h now P Q).studentId from rfl)]
    rfl
  · -- P cleared
    have hcfP : ∀ s : Session, s.sessionKey = P.sessionKey →
        (clearedOf now2 s).sessionKey = s.sessionKey := fun s _ => rfl
    have hcfQ : ∀ s : Session, s.sessionKey = Q.sessionKey →
        (clearedOf now2 s).sessionKey = s.sessionKey := fun s _ => rfl
    have hfindP1 : findSession
        (updateByKey
          (updateByKey sessions P.sessionKey
            (fun _ => assignedRecord h now P Q))
          Q.sessionKey (fun _ => assignedPartner h now P Q))
        P.sessionKey = some (assignedRecord h now P Q) := by
      rw [findSession_upd _ _ _ _ hfq, findSession_upd _ _ _ _ hfp, hP]
      simp [hARkey, Ne.symm hne]
    rw [findSession_upd _ _ _ _ hcfP, findSession_upd _ _ _ _ hcfQ,
      hfindP1]
    simp [clearedOf, hARkey, Ne.symm hne]
  · -- Q cleared
    have hcfP : ∀ s : Session, s.sessionKey = P.sessionKey →
        (clearedOf now2 s).sessionKey = s.sessionKey := fun s _ => rfl
    have hcfQ : ∀ s : Session, s.sessionKey = Q.sessionKey →
        (clearedOf now2 s).sessionKey = s.sessionKey := fun s _ => rfl
    have hfindQ1 : findSession
        (updateByKey
          (updateByKey sessions P.sessionKey
            (fun _ => assignedRecord h now P Q))
          Q.sessionKey (fun _ => assignedPartner h now P Q))
        Q.sessionKey = some (assignedPartner h now P Q) := by
      rw [findSession_upd _ _ _ _ hfq, findSession_upd _ _ _ _ hfp, hQ]
      simp [hne]
    rw [findSession_upd _ _ _ _ hcfP, findSession_upd _ _ _ _ hcfQ,
      hfindQ1]
    simp [clearedOf, hAPkey, hne]

/-- C8 witness: a same-group pair in a two-session store is linked
symmetrically by assign and fully unlinked by clear. -/
theorem C8_partner_assign_clear_witness :
    ∃ sessions1 sessions2,
      assignPartnerRecord md5stub 1 [baseSession, aPartnerSession]
          baseSession.sessionKey ⟨aPartnerSession.sessionKey, "", ""⟩ =
        .ok sessions1 ∧
      findSession sessions1 baseSession.sessionKey =
        some (assignedRecord md5stub 1 baseSession aPartnerSession) ∧
      findSession sessions1 aPartnerSession.sessionKey =
        some (assignedPartner md5stub 1 baseSession aPartnerSession) ∧
      (assignedRecord md5stub 1 baseSession
        aPartnerSession).partnerStudentId = aPartnerSession.studentId ∧
      (assignedPartner md5stub 1 baseSession
        aPartnerSession).partnerStudentId = baseSession.studentId ∧
      (assignedRecord md5stub 1 baseSession aPartnerSession).roomId =
        (assignedPartner md5stub 1 baseSession aPartnerSession).roomId ∧
      clearPartnerRecord 2 sessions1 baseSession.sessionKey =
        .ok sessions2 ∧
      (findSession sessions2 baseSession.sessionKey).map
        Session.partnerStudentId = some "" ∧
      (findSession sessions2 aPartnerSession.sessionKey).map
        Session.partnerStudentId = some "" :=
  C8_partner_assign_clear md5stub 1 2 [baseSession, aPartnerSession]
    baseSession aPartnerSession rfl rfl (by decide) (by decide) (by decide)
    (by decide) (by decide) (by decide) rfl

/-- C8 counterexample: assign accepts a partner session from another group
(here group "B" for a group-"A" record), but `clear` resolves the partner
group-scoped and so cannot find it: after `clear(P)` the former partner
still stores P's participant id — a dangling one-directional link, contrary
to the claim that neither side references the other. -/
theorem C8_counterexample :
    ∃ sessions1 sessions2,
      assignPartnerRecord md5stub 1 [baseSession, bPartnerSession]
          baseSession.sessionKey ⟨bPartnerSession.sessionKey, "", ""⟩ =
        .ok sessions1 ∧
      clearPartnerRecord 2 sessions1 baseSession.sessionKey =
        .ok sessions2 ∧
      (findSession sessions2 baseSession.sessionKey).map
        Session.partnerStudentId = some "" ∧
      (findSession sessions2 bPartnerSession.sessionKey).map
        Session.partnerStudentId = some baseSession.studentId ∧
      baseSession.studentId ≠ "" :=
  ⟨_, _, rfl, rfl, rfl, rfl, by decide⟩

end EE3
